import Mathlib

/-!
Shallow embedding of `main.py` of the ai-news-assistant repository:
a feed aggregator (`get_balanced_articles`), a Playwright-based content
fetcher (`get_content_with_playwright`), a Gemini summarization adapter
(`summarize_with_gemini_direct`), a Feishu sender (`send_to_feishu`) and
the `__main__` driver loop.  External collaborators (feedparser,
BeautifulSoup, Playwright, the Gemini and Feishu HTTP endpoints) are
modelled as oracles supplied in an `Env` record; machine-level effects
are surfaced as explicit event lists.
-/

namespace AiNews

/-- Pythonic slice `s[:n]` on a string. -/
def pySlice (s : String) (n : Nat) : String := ⟨s.data.take n⟩

/-- Pythonic `s.strip()`: remove leading and trailing whitespace. -/
def pyStrip (s : String) : String :=
  ⟨((s.data.dropWhile Char.isWhitespace).reverse.dropWhile Char.isWhitespace).reverse⟩

/-- Pythonic `s.replace('\n', ' ')`: each newline character becomes one space. -/
def replaceNewlines (s : String) : String :=
  ⟨s.data.map (fun c => if c = '\n' then ' ' else c)⟩

/-- Pythonic `s.replace('*', '')`: remove every asterisk. -/
def removeStars (s : String) : String :=
  ⟨s.data.filter (fun c => c ≠ '*')⟩

/-- Whether `sub` occurs as a contiguous run inside `l`. -/
def charsContain (sub : List Char) : List Char → Bool
  | [] => sub.isPrefixOf []
  | c :: rest => sub.isPrefixOf (c :: rest) || charsContain sub rest

/-- Pythonic substring test `sub in s`. -/
def pyContains (s sub : String) : Bool := charsContain sub.data s.data

/-- Python `sep.join(items)`. -/
def pyJoin (sep : String) : List String → String
  | [] => ""
  | [x] => x
  | x :: y :: xs => x ++ sep ++ pyJoin sep (y :: xs)

/-- `PER_FEED_LIMIT = 4` from the configuration section. -/
def PER_FEED_LIMIT : Nat := 4

/-- One parsed feed entry as consumed by `get_balanced_articles`.
`published_parsed` is the publish time converted to epoch seconds by
`datetime.fromtimestamp(time.mktime(entry.published_parsed), utc)`;
`none` models an entry whose `published_parsed` field is absent or falsy.
`summary` is `entry.get('summary', '')`. -/
structure Entry where
  title : String
  link : String
  summary : String
  published_parsed : Option Int
  deriving DecidableEq

/-- The `article_data` dict built by `get_balanced_articles`. -/
structure Article where
  title : String
  link : String
  source : String
  summary : String
  deriving DecidableEq

/-- Seconds in `timedelta(hours=24)`. -/
def windowSeconds : Int := 86400

/-- The acceptance test of the entry loop:
`published_time and published_time > twenty_four_hours_ago and entry.link not in unique_links`,
with `twenty_four_hours_ago = now - 24h` and `unique_links` the set `seen`. -/
def qualifies (now : Int) (seen : List String) (e : Entry) : Bool :=
  match e.published_parsed with
  | none => false
  | some t => decide (now - windowSeconds < t) && !(decide (e.link ∈ seen))

/-- The per-source entry loop of `get_balanced_articles`: walks the feed's
entries in native order, breaks once `count` reaches `limit`, and on each
qualifying entry appends an `Article`, records the link and bumps `count`.
Returns the accepted articles together with the updated seen-link set. -/
def processEntries (now : Int) (name : String) (limit : Nat) :
    List Entry → List String → Nat → List Article × List String
  | [], seen, _ => ([], seen)
  | e :: rest, seen, count =>
    if limit ≤ count then ([], seen)
    else if qualifies now seen e then
      let tail := processEntries now name limit rest (e.link :: seen) (count + 1)
      (⟨e.title, e.link, name, e.summary⟩ :: tail.1, tail.2)
    else
      processEntries now name limit rest seen count

/-- One configured source: display name paired with the outcome of
`feedparser.parse(url)` — `none` models the fetch/parse raising an
exception, which the per-source `except` arm catches. -/
abbrev SourceResult := String × Option (List Entry)

/-- `get_balanced_articles(feed_urls, limit_per_feed)`, with the aggregation
start time `now` and the mutable `unique_links` set made explicit. A source
whose parse fails is skipped; otherwise its feed is consumed by
`processEntries` with a fresh per-source counter. -/
def get_balanced_articles (now : Int) (limit : Nat) :
    List SourceResult → List String → List Article
  | [], _ => []
  | (name, feed) :: rest, seen =>
    match feed with
    | none => get_balanced_articles now limit rest seen
    | some entries =>
      let r := processEntries now name limit entries seen 0
      r.1 ++ get_balanced_articles now limit rest r.2

/-- Unbounded greedy acceptance: the articles built from the entries that
pass the `qualifies` test, scanned in feed order with the seen-link set
threaded through, but with no per-feed cap. This is the specification-side
notion of the feed's qualifying entries, used to state the cap claims. -/
def greedyAccept (now : Int) (name : String) : List Entry → List String → List Article
  | [], _ => []
  | e :: rest, seen =>
    if qualifies now seen e then
      ⟨e.title, e.link, name, e.summary⟩ :: greedyAccept now name rest (e.link :: seen)
    else
      greedyAccept now name rest seen

/-- Outcome of the single `requests.post` to the Gemini endpoint inside
`summarize_with_gemini_direct`, as distinguished by its `except` arms. -/
inductive GeminiOutcome where
  /-- `requests.exceptions.RequestException`: network error or non-success status. -/
  | requestFailed
  /-- `KeyError` / `IndexError` while indexing the response JSON. -/
  | malformedResponse
  /-- any other `Exception`. -/
  | otherError
  /-- the candidate text extracted from the response JSON. -/
  | ok (text : String)
  deriving DecidableEq

/-- Whether the outcome lands in one of the failure `except` arms. -/
def GeminiOutcome.isFailure : GeminiOutcome → Bool
  | .ok _ => false
  | _ => true

/-- Oracles for the external collaborators of one run:
`getText s` is `BeautifulSoup(s, 'html.parser').get_text()`;
`renderRaw url` is the string `"\n".join(non-empty paragraph texts)` built
inside the Playwright session, or `none` when the session raises before
`content` is assigned; `gemini url` is the outcome of the Gemini request
issued while processing the article at `url`. -/
structure Env where
  getText : String → String
  renderRaw : String → Option String
  gemini : String → GeminiOutcome

/-- `get_content_with_playwright(url)`: the Playwright session either leaves
`content = None` (exception before assignment), or produces the joined
paragraph text; the function returns `content[:3000] if content else None`,
so an empty join also yields `None`. -/
def get_content_with_playwright (env : Env) (url : String) : Option String :=
  match env.renderRaw url with
  | none => none
  | some content => if content = "" then none else some (pySlice content 3000)

/-- `summarize_with_gemini_direct(content, api_key)`: the returned summary
string paired with whether the external Gemini request was issued. Falsy
input (`None` or the empty string) short-circuits to the skip sentinel; a
success strips and de-asterisks the candidate text; every `except` arm
returns the failure sentinel. -/
def summarize_with_gemini_direct (content : Option String) (outcome : GeminiOutcome) :
    String × Bool :=
  match content with
  | none => ("无法获取正文，跳过总结。", false)
  | some c =>
    if c = "" then ("无法获取正文，跳过总结。", false)
    else
      match outcome with
      | .ok text => (removeStars (pyStrip text), true)
      | _ => ("AI总结失败。", true)

/-- The branch test of the `__main__` loop:
`'ArXiv' in article['source'] and article['summary']`. -/
def usesEmbeddedAbstract (a : Article) : Bool :=
  pyContains a.source "ArXiv" && decide (a.summary ≠ "")

/-- A network extraction strategy driven for one article. `staticFetch`
names the plain-HTTP-GET tier described by the specification; `rendered`
is the Playwright tier of `get_content_with_playwright`. -/
inductive Strategy where
  | staticFetch (url : String)
  | rendered (url : String)
  deriving DecidableEq

/-- The per-article body of the `__main__` loop: the summary string placed
into the digest, the network extraction strategies driven in order, and
whether the Summarization Adapter (`summarize_with_gemini_direct`) was
applied. The ArXiv branch cleans the embedded summary via BeautifulSoup
(`.get_text().strip().replace('\n', ' ')`) and touches no network; every
other article goes straight to `get_content_with_playwright` and then the
summarizer. -/
def processArticle (env : Env) (a : Article) : String × List Strategy × Bool :=
  if usesEmbeddedAbstract a then
    (replaceNewlines (pyStrip (env.getText a.summary)), [], false)
  else
    let content := get_content_with_playwright env a.link
    ((summarize_with_gemini_direct content (env.gemini a.link)).1,
      [Strategy.rendered a.link], true)

/-- The f-string `formatted_item` of the `__main__` loop. -/
def formatItem (title summary source link : String) : String :=
  "**" ++ title ++ "**\n" ++ "> **摘要**: " ++ summary ++ "\n" ++
    "来源: " ++ source ++ "\n" ++ "链接: [" ++ link ++ "](" ++ link ++ ")\n"

/-- The two environment secrets read at module load:
`FEISHU_WEBHOOK_URL` and `GEMINI_API_KEY`. -/
structure Config where
  feishuWebhookUrl : Option String
  geminiApiKey : Option String
  deriving DecidableEq

/-- How one run of the `__main__` block ends. -/
inductive RunResult where
  /-- `exit()` after the missing-secret check. -/
  | missingSecrets
  /-- `exit()` after `get_balanced_articles` returns no articles. -/
  | noNewArticles
  /-- the run reaches the end with `final_content` assembled. -/
  | completed (finalContent : String)
  /-- the `else` arm printing that no summary was generated. -/
  | allSummariesFailed
  deriving DecidableEq

/-- An externally visible network action of one run. -/
inductive RunEvent where
  /-- `feedparser.parse` for the named source. -/
  | feedFetch (name : String)
  /-- the Playwright navigation to `url`. -/
  | pageRender (url : String)
  /-- the HTTP request to the Gemini endpoint. -/
  | geminiCall
  /-- the HTTP post of the digest card to the Feishu webhook. -/
  | feishuPost
  deriving DecidableEq

/-- The network events caused by one iteration of the `__main__` loop. -/
def articleEvents (env : Env) (a : Article) : List RunEvent :=
  if usesEmbeddedAbstract a then []
  else
    let content := get_content_with_playwright env a.link
    RunEvent.pageRender a.link ::
      (if (summarize_with_gemini_direct content (env.gemini a.link)).2 then
        [RunEvent.geminiCall]
      else [])

/-- `send_to_feishu(content)`: returns whether the webhook post is issued
(`if not content: return` guards the empty string). -/
def send_to_feishu (content : String) : Bool := content ≠ ""

/-- The `__main__` block: secrets check, aggregation, per-article loop,
digest assembly and delivery, together with the run's network events in
program order. -/
def mainProgram (cfg : Config) (env : Env) (now : Int) (sources : List SourceResult) :
    RunResult × List RunEvent :=
  if cfg.feishuWebhookUrl.isNone || cfg.geminiApiKey.isNone then
    (RunResult.missingSecrets, [])
  else
    let fetchEvents := sources.map (fun s => RunEvent.feedFetch s.1)
    let articles := get_balanced_articles now PER_FEED_LIMIT sources []
    if articles.isEmpty then
      (RunResult.noNewArticles, fetchEvents)
    else
      let summaries := articles.map (fun a =>
        formatItem a.title (processArticle env a).1 a.source a.link)
      let loopEvents := (articles.map (articleEvents env)).flatten
      if summaries.isEmpty then
        (RunResult.allSummariesFailed, fetchEvents ++ loopEvents)
      else
        let finalContent := pyJoin "\n---\n\n" summaries
        (RunResult.completed finalContent,
          fetchEvents ++ loopEvents ++
            (if send_to_feishu finalContent then [RunEvent.feishuPost] else []))

/-! Concrete fixtures used by counterexamples and witnesses. -/

/-- A feed of five entries, all published one hour before `now = 0`,
with pairwise distinct links. -/
def fiveFreshEntries : List Entry :=
  [⟨"t1", "l1", "", some (-3600)⟩, ⟨"t2", "l2", "", some (-3600)⟩,
   ⟨"t3", "l3", "", some (-3600)⟩, ⟨"t4", "l4", "", some (-3600)⟩,
   ⟨"t5", "l5", "", some (-3600)⟩]

/-- The aggregation run over the single source `"Source A"` carrying
`fiveFreshEntries`, at `now = 0` with the repository's `PER_FEED_LIMIT`. -/
def fiveFreshRun : List Article :=
  get_balanced_articles 0 PER_FEED_LIMIT [("Source A", some fiveFreshEntries)] []

/-- A feed of ten qualifying entries with pairwise distinct links. -/
def tenFreshEntries : List Entry :=
  [⟨"t1", "m1", "", some (-60)⟩, ⟨"t2", "m2", "", some (-60)⟩,
   ⟨"t3", "m3", "", some (-60)⟩, ⟨"t4", "m4", "", some (-60)⟩,
   ⟨"t5", "m5", "", some (-60)⟩, ⟨"t6", "m6", "", some (-60)⟩,
   ⟨"t7", "m7", "", some (-60)⟩, ⟨"t8", "m8", "", some (-60)⟩,
   ⟨"t9", "m9", "", some (-60)⟩, ⟨"t10", "m10", "", some (-60)⟩]

/-- A basic oracle environment: `get_text` is the identity, every Playwright
session raises, every Gemini request fails at the network layer. -/
def idEnv : Env := ⟨fun s => s, fun _ => none, fun _ => .requestFailed⟩

/-- An article from the ArXiv-flagged source with a short embedded summary. -/
def arxivArticle : Article :=
  ⟨"Paper", "http://arxiv.org/abs/1234", "ArXiv CS.AI (Paper)", "Deep learning."⟩

/-- An article from a generic news source (not ArXiv-flagged). -/
def bbcArticle : Article :=
  ⟨"Headline", "http://bbc.example/story", "BBC World (EN)", ""⟩

/-- An ArXiv-flagged article whose embedded summary holds 3001 characters. -/
def longArxivArticle : Article :=
  ⟨"Paper", "http://arxiv.org/abs/9999", "ArXiv CS.AI (Paper)",
    ⟨List.replicate 3001 'a'⟩⟩

/-- An environment whose Playwright session assembles 3001 characters of
paragraph text for every page. -/
def longPageEnv : Env :=
  ⟨fun s => s, fun _ => some ⟨List.replicate 3001 'a'⟩, fun _ => .requestFailed⟩

end AiNews

namespace AiNews

/-! Aggregator lemmas. -/

/-- An entry passing the qualification test has a link outside the seen set. -/
theorem link_not_mem_of_qualifies {now : Int} {seen : List String} {e : Entry}
    (h : qualifies now seen e = true) : e.link ∉ seen := by
  unfold qualifies at h
  cases hp : e.published_parsed with
  | none => rw [hp] at h; exact absurd h (by simp)
  | some t =>
    rw [hp] at h
    simp only [Bool.and_eq_true, Bool.not_eq_true', decide_eq_false_iff_not] at h
    exact h.2

/-- The capped per-source loop accepts exactly the first `limit - c` entries
of the unbounded greedy acceptance. -/
theorem processEntries_fst_eq_take (now : Int) (name : String) (limit : Nat) :
    ∀ (es : List Entry) (seen : List String) (c : Nat),
      (processEntries now name limit es seen c).1
        = (greedyAccept now name es seen).take (limit - c)
  | [], seen, c => by simp [processEntries, greedyAccept]
  | e :: rest, seen, c => by
    by_cases hl : limit ≤ c
    · have h0 : limit - c = 0 := Nat.sub_eq_zero_of_le hl
      simp [processEntries, hl, h0]
    · have hsub : limit - c = (limit - (c + 1)) + 1 := by omega
      by_cases hq : qualifies now seen e = true
      · simp only [processEntries, if_neg hl, if_pos hq, greedyAccept]
        rw [hsub, List.take_succ_cons]
        exact congrArg _ (processEntries_fst_eq_take now name limit rest (e.link :: seen) (c + 1))
      · simp only [processEntries, if_neg hl, if_neg hq, greedyAccept]
        exact processEntries_fst_eq_take now name limit rest seen c

/-- The seen set returned by the per-source loop holds exactly the initial
seen links plus the links of the accepted articles. -/
theorem processEntries_mem_snd (now : Int) (name : String) (limit : Nat) :
    ∀ (es : List Entry) (seen : List String) (c : Nat) (l : String),
      l ∈ (processEntries now name limit es seen c).2
        ↔ l ∈ seen ∨ l ∈ (processEntries now name limit es seen c).1.map Article.link
  | [], seen, c, l => by simp [processEntries]
  | e :: rest, seen, c, l => by
    by_cases hl : limit ≤ c
    · simp [processEntries, hl]
    · by_cases hq : qualifies now seen e = true
      · simp only [processEntries, if_neg hl, if_pos hq, List.map_cons, List.mem_cons]
        rw [processEntries_mem_snd now name limit rest (e.link :: seen) (c + 1) l]
        simp only [List.mem_cons]
        tauto
      · simp only [processEntries, if_neg hl, if_neg hq]
        exact processEntries_mem_snd now name limit rest seen c l

/-- The links of the articles accepted by the per-source loop are pairwise
distinct and all lie outside the initial seen set. -/
theorem processEntries_links_nodup (now : Int) (name : String) (limit : Nat) :
    ∀ (es : List Entry) (seen : List String) (c : Nat),
      ((processEntries now name limit es seen c).1.map Article.link).Nodup
        ∧ ∀ l ∈ (processEntries now name limit es seen c).1.map Article.link, l ∉ seen
  | [], seen, c => by simp [processEntries]
  | e :: rest, seen, c => by
    by_cases hl : limit ≤ c
    · simp [processEntries, hl]
    · by_cases hq : qualifies now seen e = true
      · have ih := processEntries_links_nodup now name limit rest (e.link :: seen) (c + 1)
        simp only [processEntries, if_neg hl, if_pos hq, List.map_cons]
        constructor
        · refine List.nodup_cons.mpr ⟨fun hmem => ?_, ih.1⟩
          exact ih.2 _ hmem (List.mem_cons_self _ _)
        · intro l hlmem
          rcases List.mem_cons.mp hlmem with rfl | hlmem
          · exact link_not_mem_of_qualifies hq
          · exact fun hseen => ih.2 l hlmem (List.mem_cons_of_mem _ hseen)
      · simp only [processEntries, if_neg hl, if_neg hq]
        exact processEntries_links_nodup now name limit rest seen c

/-- The links of a whole aggregation run are pairwise distinct and all lie
outside the initial seen set. -/
theorem gba_links_nodup (now : Int) (limit : Nat) :
    ∀ (srcs : List SourceResult) (seen : List String),
      ((get_balanced_articles now limit srcs seen).map Article.link).Nodup
        ∧ ∀ l ∈ (get_balanced_articles now limit srcs seen).map Article.link, l ∉ seen
  | [], seen => by simp [get_balanced_articles]
  | (name, none) :: rest, seen => by
    simpa only [get_balanced_articles] using gba_links_nodup now limit rest seen
  | (name, some es) :: rest, seen => by
    have hp := processEntries_links_nodup now name limit es seen 0
    have ih := gba_links_nodup now limit rest
      (processEntries now name limit es seen 0).2
    have hsub : ∀ l ∈ (processEntries now name limit es seen 0).1.map Article.link,
        l ∈ (processEntries now name limit es seen 0).2 := fun l hl =>
      (processEntries_mem_snd now name limit es seen 0 l).mpr (Or.inr hl)
    have hseen : ∀ l ∈ seen, l ∈ (processEntries now name limit es seen 0).2 := fun l hl =>
      (processEntries_mem_snd now name limit es seen 0 l).mpr (Or.inl hl)
    simp only [get_balanced_articles, List.map_append, List.nodup_append]
    refine ⟨⟨hp.1, ih.1, fun l hl₁ hl₂ => ih.2 l hl₂ (hsub l hl₁)⟩, ?_⟩
    intro l hl
    rcases List.mem_append.mp hl with hl₁ | hl₂
    · exact hp.2 l hl₁
    · exact fun hs => ih.2 l hl₂ (hseen l hs)

/-! Claim theorems: aggregator. -/

/-- C1, counterexample to the claim as stated: in a run at `now = 0` over one
source whose feed holds five qualifying entries (with the repository's
`PER_FEED_LIMIT = 4`), the fifth entry has a parseable publish timestamp
strictly inside the 24-hour window and a link that is never accepted from any
source in the run, yet no article with its link appears in the output — so
acceptance is not equivalent to the claim's three conditions alone. -/
theorem aggregator_iff_counterexample :
    qualifies 0 (fiveFreshRun.map Article.link) ⟨"t5", "l5", "", some (-3600)⟩ = true
    ∧ (⟨"t5", "l5", "", some (-3600)⟩ : Entry) ∈ fiveFreshEntries
    ∧ fiveFreshRun.map Article.link = ["l1", "l2", "l3", "l4"] := by decide

/-- C1 (amended): per source the aggregator accepts exactly the first
`limit` entries that pass the qualification test — parseable publish
timestamp, strictly inside the trailing 24-hour window, link not yet
accepted — scanned in feed order with the seen-link set threaded through;
consequently an entry without a parseable timestamp is never accepted, and
the link values of a full run's output are pairwise distinct. -/
theorem aggregator_accepts_take_of_qualifying (now : Int) (name : String)
    (limit : Nat) (es : List Entry) (seen : List String) (srcs : List SourceResult) :
    (processEntries now name limit es seen 0).1
        = (greedyAccept now name es seen).take limit
    ∧ ((get_balanced_articles now limit srcs []).map Article.link).Nodup := by
  refine ⟨?_, (gba_links_nodup now limit srcs []).1⟩
  have h := processEntries_fst_eq_take now name limit es seen 0
  rwa [Nat.sub_zero] at h

/-- C3: when a source's feed yields at least `limit` qualifying entries, the
per-source loop accepts exactly `limit` articles, and they are the first
`limit` qualifying entries in the feed's native order. -/
theorem per_feed_cap (now : Int) (name : String) (limit : Nat)
    (es : List Entry) (seen : List String)
    (h : limit ≤ (greedyAccept now name es seen).length) :
    (processEntries now name limit es seen 0).1.length = limit
    ∧ (processEntries now name limit es seen 0).1
        = (greedyAccept now name es seen).take limit := by
  have ht := processEntries_fst_eq_take now name limit es seen 0
  rw [Nat.sub_zero] at ht
  refine ⟨?_, ht⟩
  rw [ht, List.length_take]
  exact Nat.min_eq_left h

/-- C3, witness: a feed of ten qualifying entries with limit four yields
exactly four accepted articles. -/
theorem per_feed_cap_witness :
    4 ≤ (greedyAccept 0 "Source B" tenFreshEntries []).length
    ∧ (processEntries 0 "Source B" 4 tenFreshEntries [] 0).1.length = 4 :=
  ⟨by decide, (per_feed_cap 0 "Source B" 4 tenFreshEntries [] (by decide)).1⟩

/-- Aggregation over a source list equals aggregation over the sources whose
fetch/parse succeeded. -/
theorem gba_skips_failing (now : Int) (limit : Nat) :
    ∀ (srcs : List SourceResult) (seen : List String),
      get_balanced_articles now limit srcs seen
        = get_balanced_articles now limit (srcs.filter (fun s => s.2.isSome)) seen
  | [], _ => rfl
  | (name, none) :: rest, seen => by
    simpa only [get_balanced_articles, List.filter_cons, Option.isSome_none,
      Bool.false_eq_true, if_false] using gba_skips_failing now limit rest seen
  | (name, some es) :: rest, seen => by
    simp only [get_balanced_articles, List.filter_cons, Option.isSome_some, if_true]
    exact congrArg _ (gba_skips_failing now limit rest _)

/-- C7: a source whose feed fetch/parse fails is skipped at its own boundary —
the aggregation output over any source list equals the output over the
non-failing sources alone, so a failing source contributes zero articles and
never aborts the run. -/
theorem source_failure_isolated (now : Int) (limit : Nat)
    (srcs : List SourceResult) (seen : List String) :
    get_balanced_articles now limit srcs seen
      = get_balanced_articles now limit (srcs.filter (fun s => s.2.isSome)) seen :=
  gba_skips_failing now limit srcs seen

/-! Extraction and summarization lemmas. -/

/-- `pyStrip` fixes a run of a non-whitespace character. -/
theorem pyStrip_replicate (n : Nat) (c : Char) (h : c.isWhitespace = false) :
    pyStrip ⟨List.replicate n c⟩ = ⟨List.replicate n c⟩ := by
  simp [pyStrip, List.dropWhile_replicate, h]

/-- `replaceNewlines` fixes a run of a non-newline character. -/
theorem replaceNewlines_replicate (n : Nat) (c : Char) (h : ¬c = '\n') :
    replaceNewlines ⟨List.replicate n c⟩ = ⟨List.replicate n c⟩ := by
  simp [replaceNewlines, List.map_replicate, h]

/-! Claim theorems: extraction and summarization. -/

/-- C2, counterexample to the claim as stated: for an article from a generic
(non-ArXiv) source, the first network strategy the extractor attempts is the
headless-browser render, not a static HTTP GET — no static-fetch tier exists
in the code. -/
theorem static_first_counterexample :
    usesEmbeddedAbstract bbcArticle = false
    ∧ (processArticle idEnv bbcArticle).2.1.head?
        = some (Strategy.rendered bbcArticle.link)
    ∧ (processArticle idEnv bbcArticle).2.1.head?
        ≠ some (Strategy.staticFetch bbcArticle.link) := by decide

/-- C2 (amended): for every article off the embedded-abstract path the
extractor drives exactly one network strategy, the headless-browser render of
the article's link; a static-fetch strategy is never attempted. -/
theorem rendered_is_only_strategy (env : Env) (a : Article)
    (h : usesEmbeddedAbstract a = false) :
    (processArticle env a).2.1 = [Strategy.rendered a.link]
    ∧ ∀ u, Strategy.staticFetch u ∉ (processArticle env a).2.1 := by
  constructor <;> simp [processArticle, h]

/-- C2, witness: a concrete generic-source article drives exactly the
rendered strategy. -/
theorem rendered_is_only_strategy_witness :
    usesEmbeddedAbstract bbcArticle = false
    ∧ (processArticle idEnv bbcArticle).2.1 = [Strategy.rendered bbcArticle.link] :=
  ⟨by decide, (rendered_is_only_strategy idEnv bbcArticle (by decide)).1⟩

/-- C4, counterexample to the claim as stated: the embedded-abstract strategy
does not truncate — an ArXiv article whose cleaned embedded summary has 3001
characters contributes a 3001-character text, exceeding the configured
maximum of 3000. -/
theorem truncation_counterexample :
    usesEmbeddedAbstract longArxivArticle = true
    ∧ 3000 < (processArticle idEnv longArxivArticle).1.length := by
  have huse : usesEmbeddedAbstract longArxivArticle = true := by decide
  refine ⟨huse, ?_⟩
  have h1 : (processArticle idEnv longArxivArticle).1
      = replaceNewlines (pyStrip ⟨List.replicate 3001 'a'⟩) := rfl
  rw [h1, pyStrip_replicate 3001 'a' (by decide),
    replaceNewlines_replicate 3001 'a' (by decide),
    String.length_mk, List.length_replicate]
  omega

/-- C4 (amended): the rendered-fetch strategy hard-truncates — whenever the
Playwright session assembles raw paragraph text longer than 3000 characters,
`get_content_with_playwright` returns exactly the 3000-character slice. -/
theorem rendered_truncation (env : Env) (url : String) (c : String)
    (h1 : env.renderRaw url = some c) (h2 : 3000 < c.length) :
    get_content_with_playwright env url = some (pySlice c 3000)
    ∧ (pySlice c 3000).length = 3000 := by
  have hne : c ≠ "" := by
    intro h
    rw [h] at h2
    simp [String.length] at h2
  constructor
  · simp [get_content_with_playwright, h1, hne]
  · show (⟨c.data.take 3000⟩ : String).length = 3000
    have : c.data.length = c.length := rfl
    simp only [String.length_mk, List.length_take]
    omega

/-- C4, witness: a 3001-character page is returned at exactly 3000
characters by the rendered-fetch tier. -/
theorem rendered_truncation_witness :
    longPageEnv.renderRaw "http://bbc.example/story" = some ⟨List.replicate 3001 'a'⟩
    ∧ 3000 < (⟨List.replicate 3001 'a'⟩ : String).length
    ∧ (pySlice ⟨List.replicate 3001 'a'⟩ 3000).length = 3000 :=
  ⟨rfl, by rw [String.length_mk, List.length_replicate]; omega,
    (rendered_truncation longPageEnv "http://bbc.example/story"
      ⟨List.replicate 3001 'a'⟩ rfl
      (by rw [String.length_mk, List.length_replicate]; omega)).2⟩

/-- C5: an article on the embedded-abstract path (ArXiv-flagged source with a
non-empty embedded summary) gets its digest text by stripping markup from the
embedded summary (BeautifulSoup `get_text`), stripping surrounding whitespace
and mapping each embedded newline to a single space; it drives no network
extraction strategy and never reaches the summarizer. -/
theorem embedded_abstract_no_fetch (env : Env) (a : Article)
    (h : usesEmbeddedAbstract a = true) :
    processArticle env a
      = (replaceNewlines (pyStrip (env.getText a.summary)), [], false) := by
  simp [processArticle, h]

/-- C5, witness: a concrete ArXiv article with a non-empty embedded summary
takes the no-fetch path. -/
theorem embedded_abstract_no_fetch_witness :
    usesEmbeddedAbstract arxivArticle = true
    ∧ processArticle idEnv arxivArticle
        = (replaceNewlines (pyStrip (idEnv.getText arxivArticle.summary)), [], false) :=
  ⟨by decide, embedded_abstract_no_fetch idEnv arxivArticle (by decide)⟩

/-- C6, counterexample to the claim as stated: an ArXiv article with a
non-empty embedded summary has its digest summary taken directly from the
embedded abstract — the Summarization Adapter is never applied to it. -/
theorem summary_adapter_counterexample :
    usesEmbeddedAbstract arxivArticle = true
    ∧ (processArticle idEnv arxivArticle).2.2 = false := by decide

/-- C6 (amended): every article off the embedded-abstract path has its digest
summary produced by applying the Summarization Adapter to the Content
Extractor's output for that article; embedded-abstract articles bypass the
adapter entirely. -/
theorem summary_via_adapter_unless_abstract (env : Env) (a : Article)
    (h : usesEmbeddedAbstract a = false) :
    (processArticle env a).1
      = (summarize_with_gemini_direct (get_content_with_playwright env a.link)
          (env.gemini a.link)).1
    ∧ (processArticle env a).2.2 = true := by
  constructor <;> simp [processArticle, h]

/-- C6, witness: a concrete generic-source article's summary is the
adapter's output. -/
theorem summary_via_adapter_unless_abstract_witness :
    usesEmbeddedAbstract bbcArticle = false
    ∧ (processArticle idEnv bbcArticle).1
        = (summarize_with_gemini_direct (get_content_with_playwright idEnv bbcArticle.link)
            (idEnv.gemini bbcArticle.link)).1 :=
  ⟨by decide, (summary_via_adapter_unless_abstract idEnv bbcArticle (by decide)).1⟩

/-- C8: the summarization adapter is a total function with sentinel
fallbacks — falsy input (`None` or the empty string) yields the
"extraction skipped" sentinel with no external request, and any failing
request outcome on non-empty input yields the "summarization failed"
sentinel after the single external request. -/
theorem summarizer_contract (c : String) (r : GeminiOutcome)
    (hc : c ≠ "") (hr : r.isFailure = true) :
    summarize_with_gemini_direct none r = ("无法获取正文，跳过总结。", false)
    ∧ summarize_with_gemini_direct (some "") r = ("无法获取正文，跳过总结。", false)
    ∧ summarize_with_gemini_direct (some c) r = ("AI总结失败。", true) := by
  refine ⟨rfl, rfl, ?_⟩
  cases r with
  | ok t => simp [GeminiOutcome.isFailure] at hr
  | requestFailed => simp [summarize_with_gemini_direct, hc]
  | malformedResponse => simp [summarize_with_gemini_direct, hc]
  | otherError => simp [summarize_with_gemini_direct, hc]

/-- C8, witness: a failing request on non-empty input returns the failure
sentinel. -/
theorem summarizer_contract_witness :
    ("news text" ≠ "" ∧ GeminiOutcome.requestFailed.isFailure = true)
    ∧ summarize_with_gemini_direct (some "news text") GeminiOutcome.requestFailed
        = ("AI总结失败。", true) :=
  ⟨⟨by decide, rfl⟩,
    (summarizer_contract "news text" .requestFailed (by decide) rfl).2.2⟩

/-! Main-program lemmas. -/

/-- A string of length zero is the empty string. -/
theorem string_eq_empty_of_length (s : String) (h : s.length = 0) : s = "" := by
  cases s with
  | mk data =>
    cases data with
    | nil => rfl
    | cons c cs => simp [String.length_mk] at h

/-- A formatted digest item is never the empty string. -/
theorem formatItem_ne_empty (t s src l : String) : formatItem t s src l ≠ "" := by
  intro h
  have hlen := congrArg String.length h
  rw [formatItem] at hlen
  simp only [String.length_append] at hlen
  have h2 : String.length "**" = 2 := rfl
  have h0 : String.length "" = 0 := rfl
  rw [h2, h0] at hlen
  omega

/-- Joining a list whose head is non-empty yields a non-empty string. -/
theorem pyJoin_ne_empty (sep x : String) (xs : List String) (hx : x ≠ "") :
    pyJoin sep (x :: xs) ≠ "" := by
  cases xs with
  | nil => simpa [pyJoin] using hx
  | cons y ys =>
    intro h
    have hlen := congrArg String.length h
    rw [pyJoin] at hlen
    simp only [String.length_append] at hlen
    have h0 : String.length "" = 0 := rfl
    rw [h0] at hlen
    exact hx (string_eq_empty_of_length x (by omega))

/-- A present optional value is not absent. -/
theorem isNone_false_of_isSome {α : Type} {o : Option α} (h : o.isSome = true) :
    o.isNone = false := by
  cases o with
  | none => simp at h
  | some v => rfl

/-! Claim theorems: main program. -/

/-- C9: if either secret is absent the run halts before any network event;
with secrets present and zero aggregated articles the run halts after the
feed fetches alone — no page render, no summarization request, no delivery
post; with secrets present and a non-empty article list the run always
reaches the completed state. -/
theorem fatal_preconditions (cfg : Config) (env : Env) (now : Int)
    (sources : List SourceResult) :
    (cfg.feishuWebhookUrl = none ∨ cfg.geminiApiKey = none →
      mainProgram cfg env now sources = (RunResult.missingSecrets, []))
    ∧ (cfg.feishuWebhookUrl.isSome = true → cfg.geminiApiKey.isSome = true →
        get_balanced_articles now PER_FEED_LIMIT sources [] = [] →
        mainProgram cfg env now sources
          = (RunResult.noNewArticles, sources.map (fun s => RunEvent.feedFetch s.1)))
    ∧ (cfg.feishuWebhookUrl.isSome = true → cfg.geminiApiKey.isSome = true →
        get_balanced_articles now PER_FEED_LIMIT sources [] ≠ [] →
        ∃ d, (mainProgram cfg env now sources).1 = RunResult.completed d) := by
  refine ⟨?_, ?_, ?_⟩
  · intro hs
    rcases hs with hs | hs <;> simp [mainProgram, hs]
  · intro hw hk hempty
    simp [mainProgram, isNone_false_of_isSome hw, isNone_false_of_isSome hk, hempty]
  · intro hw hk hne
    obtain ⟨a, rest, hA⟩ : ∃ a rest,
        get_balanced_articles now PER_FEED_LIMIT sources [] = a :: rest := by
      cases hA : get_balanced_articles now PER_FEED_LIMIT sources [] with
      | nil => exact absurd hA hne
      | cons a rest => exact ⟨a, rest, rfl⟩
    refine ⟨pyJoin "\n---\n\n"
      ((get_balanced_articles now PER_FEED_LIMIT sources []).map (fun a =>
        formatItem a.title (processArticle env a).1 a.source a.link)), ?_⟩
    simp [mainProgram, isNone_false_of_isSome hw, isNone_false_of_isSome hk, hA]

/-- C9, witness: the three exit paths at concrete inputs. -/
theorem fatal_preconditions_witness :
    mainProgram ⟨none, some "key"⟩ idEnv 0 [] = (RunResult.missingSecrets, [])
    ∧ mainProgram ⟨some "hook", some "key"⟩ idEnv 0 [("Dead Feed", none)]
        = (RunResult.noNewArticles, [RunEvent.feedFetch "Dead Feed"])
    ∧ ∃ d, (mainProgram ⟨some "hook", some "key"⟩ idEnv 0
        [("Source A", some fiveFreshEntries)]).1 = RunResult.completed d :=
  ⟨(fatal_preconditions ⟨none, some "key"⟩ idEnv 0 []).1 (Or.inl rfl),
   (fatal_preconditions ⟨some "hook", some "key"⟩ idEnv 0
      [("Dead Feed", none)]).2.1 rfl rfl rfl,
   (fatal_preconditions ⟨some "hook", some "key"⟩ idEnv 0
      [("Source A", some fiveFreshEntries)]).2.2 rfl rfl (by decide)⟩

/-- C10: with secrets present and a non-empty article list, the loop appends
exactly one formatted digest entry per article (failures contribute sentinel
strings rather than omitting the entry), so the summaries list has the same
length as the article list, the run completes with the digest joined from
those entries, the Feishu delivery is attempted, and the branch for "all
articles failed to summarize, send nothing" is unreachable. -/
theorem digest_entry_per_article (cfg : Config) (env : Env) (now : Int)
    (sources : List SourceResult) (wh key : String)
    (hcfg : cfg = ⟨some wh, some key⟩)
    (hne : get_balanced_articles now PER_FEED_LIMIT sources [] ≠ []) :
    ((get_balanced_articles now PER_FEED_LIMIT sources []).map (fun a =>
        formatItem a.title (processArticle env a).1 a.source a.link)).length
      = (get_balanced_articles now PER_FEED_LIMIT sources []).length
    ∧ (mainProgram cfg env now sources).1
        = RunResult.completed (pyJoin "\n---\n\n"
            ((get_balanced_articles now PER_FEED_LIMIT sources []).map (fun a =>
              formatItem a.title (processArticle env a).1 a.source a.link)))
    ∧ (mainProgram cfg env now sources).1 ≠ RunResult.allSummariesFailed
    ∧ RunEvent.feishuPost ∈ (mainProgram cfg env now sources).2 := by
  subst hcfg
  obtain ⟨a, rest, hA⟩ : ∃ a rest,
      get_balanced_articles now PER_FEED_LIMIT sources [] = a :: rest := by
    cases hA : get_balanced_articles now PER_FEED_LIMIT sources [] with
    | nil => exact absurd hA hne
    | cons a rest => exact ⟨a, rest, rfl⟩
  have hsend : send_to_feishu (pyJoin "\n---\n\n"
      ((a :: rest).map (fun a =>
        formatItem a.title (processArticle env a).1 a.source a.link))) = true := by
    simp only [List.map_cons, send_to_feishu, decide_eq_true_eq]
    exact pyJoin_ne_empty _ _ _ (formatItem_ne_empty _ _ _ _)
  refine ⟨List.length_map _ _, ?_, ?_, ?_⟩
  · simp [mainProgram, hA, hsend]
  · simp [mainProgram, hA, hsend]
  · simp [mainProgram, hA]
    exact Or.inr (Or.inr (by simpa using hsend))

/-- C10, witness: a concrete run with secrets and one qualifying source
attempts the Feishu delivery. -/
theorem digest_entry_per_article_witness :
    get_balanced_articles 0 PER_FEED_LIMIT [("Source A", some fiveFreshEntries)] [] ≠ []
    ∧ RunEvent.feishuPost ∈ (mainProgram ⟨some "hook", some "key"⟩ idEnv 0
        [("Source A", some fiveFreshEntries)]).2 :=
  ⟨by decide,
    (digest_entry_per_article ⟨some "hook", some "key"⟩ idEnv 0
      [("Source A", some fiveFreshEntries)] "hook" "key" rfl (by decide)).2.2.2⟩

end AiNews
